import Mathlib

/-!
Shallow embedding of the ranking core of `src/stream.py` (a TF-IDF product
search service).  The catalog and the five fitted TF-IDF vectorizers are
built at startup from an external CSV file that is not part of the source,
so they appear here as parameters (a `SearchState`).  Numeric fields that
pandas represents as possibly-NaN floats are modelled as `Option ℚ`
(`none` = NaN / missing); float arithmetic is modelled by exact rational
arithmetic.
-/

/-- Dot product of two rational vectors (`numpy` style, over equal-length
vectors; all call sites use equal lengths). -/
def dot (x y : List ℚ) : ℚ :=
  (List.zipWith (· * ·) x y).sum

/-- Rational square root used to model the float `sqrt` inside
`sklearn.metrics.pairwise.cosine_similarity`.  It is exact on rationals
whose numerator and denominator are perfect squares, and every concrete
instance evaluated in this file stays inside that exact fragment. -/
def ratSqrt (q : ℚ) : ℚ :=
  (Nat.sqrt q.num.toNat : ℚ) / (Nat.sqrt q.den : ℚ)

/-- Cosine similarity of two vectors, as computed by sklearn
`cosine_similarity`: the dot product of the two vectors each divided by its
Euclidean norm, where a zero norm is replaced by 1 (so a zero vector has
similarity 0 with everything). -/
def cosSim (x y : List ℚ) : ℚ :=
  let nx := ratSqrt (dot x x)
  let ny := ratSqrt (dot y y)
  dot x y / ((if nx = 0 then 1 else nx) * (if ny = 0 then 1 else ny))

/-- Scalar multiple of a sparse vector (scipy scalar-matrix product). -/
def smulVec (w : ℚ) (v : List ℚ) : List ℚ :=
  v.map (fun a => w * a)

/-- Addition of two scipy sparse row vectors.  scipy raises a
shape-mismatch `ValueError` when the operands have different dimensions;
the error is modelled as `none`. -/
def addVec (x y : List ℚ) : Option (List ℚ) :=
  if x.length = y.length then some (List.zipWith (· + ·) x y) else none

/-- Characters kept by the regex `[^\w\s]` deletion in
`normalize_text_simple` (line 26): word characters and whitespace.  The
ASCII fragment of the Python character classes is modelled. -/
def keepChar (c : Char) : Bool :=
  c.isAlphanum || c == '_' || c.isWhitespace

/-- Embedding of `normalize_text_simple` (lines 21-27): `None`/NaN input
yields the empty string, otherwise lowercase the text and remove every
character that is neither a word character nor whitespace. -/
def normalize_text_simple : Option String → String
  | none => ""
  | some t => ((t.data.map Char.toLower).filter keepChar).asString

/-- One catalog row, with the fields consumed by the per-query pipeline.
`product_rating` is the value after the `pd.to_numeric(..., errors=coerce)`
coercion of line 115 (`none` = missing or non-numeric).  `image` is the
outcome of `eval(row[image])` on line 131: `none` models the textual
image-URL-list field failing to parse (the `except` branch), `some urls`
the successfully parsed list. -/
structure Row where
  product_name : String
  retail_price : Option ℚ
  discounted_price : Option ℚ
  product_rating : Option ℚ
  image : Option (List String)
  product_url : String
deriving DecidableEq

/-- Output record built on lines 135-140. -/
structure ProductSummary where
  image : String
  name : String
  price : Option ℚ
  url : String
deriving DecidableEq

/-- One fitted `TfidfVectorizer` together with its fitted document-term
matrix: `dim` is the learned vocabulary size, `transform` the frozen
query-time transform (sklearn always returns a vector of the vocabulary
dimension), `matrix` the rows of the fitted document-term matrix. -/
structure FieldSpace where
  dim : ℕ
  transform : String → List ℚ
  matrix : List (List ℚ)
  transform_dim : ∀ q, (transform q).length = dim

/-- The module-level state built at startup (lines 14-48): the catalog
rows and the five per-field vectorizers, whose matrices have one row per
catalog row. -/
structure SearchState where
  rows : List Row
  tfidf_name : FieldSpace
  tfidf_category : FieldSpace
  tfidf_brand : FieldSpace
  tfidf_description : FieldSpace
  tfidf_specifications : FieldSpace
  name_rows : tfidf_name.matrix.length = rows.length
  category_rows : tfidf_category.matrix.length = rows.length
  brand_rows : tfidf_brand.matrix.length = rows.length
  description_rows : tfidf_description.matrix.length = rows.length
  specifications_rows : tfidf_specifications.matrix.length = rows.length

/-- Field weight for product names (line 52). -/
def weights_name : ℚ := 0.4

/-- Field weight for the category tree (line 53). -/
def weights_category : ℚ := 0.2

/-- Field weight for the brand (line 54). -/
def weights_brand : ℚ := 0.15

/-- Field weight for the description (line 55). -/
def weights_description : ℚ := 0.15

/-- Field weight for the extracted specifications (line 56). -/
def weights_specifications : ℚ := 0.1

/-- Embedding of `get_weighted_tfidf_vector` (lines 69-85): normalize the
query, transform it in each of the five field spaces, and form the
weighted sum of the five vectors.  The additions associate to the left as
in the Python expression, and each one fails (scipy `ValueError`) when its
operands have different dimensions. -/
def get_weighted_tfidf_vector (s : SearchState) (query : String) : Option (List ℚ) :=
  let q := normalize_text_simple (some query)
  let query_name_vector := s.tfidf_name.transform q
  let query_category_vector := s.tfidf_category.transform q
  let query_brand_vector := s.tfidf_brand.transform q
  let query_description_vector := s.tfidf_description.transform q
  let query_specifications_vector := s.tfidf_specifications.transform q
  (addVec (smulVec weights_name query_name_vector)
      (smulVec weights_category query_category_vector)).bind (fun v1 =>
    (addVec v1 (smulVec weights_brand query_brand_vector)).bind (fun v2 =>
      (addVec v2 (smulVec weights_description query_description_vector)).bind (fun v3 =>
        addVec v3 (smulVec weights_specifications query_specifications_vector))))

/-- Embedding of `calculate_discount_percentage` (lines 87-90): the
percentage when `retail_price > 0`, NaN (`none`) otherwise; NaN also
propagates from a missing `discounted_price` through the float
arithmetic. -/
def calculate_discount_percentage (row : Row) : Option ℚ :=
  match row.retail_price with
  | some r => if r > 0 then row.discounted_price.map (fun d => 100 * (1 - d / r)) else none
  | none => none

/-- pandas `Series.fillna` on a single entry. -/
def fillna (o : Option ℚ) (d : ℚ) : ℚ :=
  o.getD d

/-- The guard `not query.strip()` of line 93: Python `strip` removes
leading and trailing whitespace, and the result is the empty (falsy)
string exactly when every character of the query is whitespace. -/
def isBlank (query : String) : Bool :=
  query.data.all (fun c => c.isWhitespace)

/-- One cosine-similarity array of line 98-102:
`cosine_similarity(query_vector, matrix).flatten()` computes the cosine of
the single query row against every matrix row. -/
def sim_array (qv : List ℚ) (m : List (List ℚ)) : List ℚ :=
  m.map (fun r => cosSim qv r)

/-- Embedding of lines 98-109: the five per-field cosine-similarity arrays
of the merged query vector against the five document-term matrices,
combined elementwise with the field weights applied (a second time) as on
lines 105-109. -/
def combined_similarities (s : SearchState) (qv : List ℚ) : List ℚ :=
  let similarities_name := sim_array qv s.tfidf_name.matrix
  let similarities_category := sim_array qv s.tfidf_category.matrix
  let similarities_brand := sim_array qv s.tfidf_brand.matrix
  let similarities_description := sim_array qv s.tfidf_description.matrix
  let similarities_specifications := sim_array qv s.tfidf_specifications.matrix
  List.zipWith (· + ·)
    (List.zipWith (· + ·)
      (List.zipWith (· + ·)
        (List.zipWith (· + ·)
          (similarities_name.map (fun x => weights_name * x))
          (similarities_category.map (fun x => weights_category * x)))
        (similarities_brand.map (fun x => weights_brand * x)))
      (similarities_description.map (fun x => weights_description * x)))
    (similarities_specifications.map (fun x => weights_specifications * x))

/-- Comparison used to model `numpy.argsort` on the score array: ascending
score, with ties resolved by ascending position.  This is the order numpy
argsort produces on arrays of fewer than 17 elements, where its default
introsort runs insertion sort, which is stable. -/
def argRel (s : List ℚ) (i j : ℕ) : Prop :=
  s.getD i 0 < s.getD j 0 ∨ (s.getD i 0 = s.getD j 0 ∧ i ≤ j)

instance argRelDec (s : List ℚ) : DecidableRel (argRel s) := fun i j => by
  unfold argRel
  infer_instance

instance argRelTotal (s : List ℚ) : IsTotal ℕ (argRel s) := ⟨by
  intro i j
  unfold argRel
  rcases lt_trichotomy (s.getD i 0) (s.getD j 0) with h | h | h
  · exact Or.inl (Or.inl h)
  · rcases Nat.le_total i j with hij | hij
    · exact Or.inl (Or.inr ⟨h, hij⟩)
    · exact Or.inr (Or.inr ⟨h.symm, hij⟩)
  · exact Or.inr (Or.inl h)⟩

instance argRelTrans (s : List ℚ) : IsTrans ℕ (argRel s) := ⟨by
  intro i j k hij hjk
  unfold argRel at *
  rcases hij with h1 | ⟨h1, h1b⟩ <;> rcases hjk with h2 | ⟨h2, h2b⟩
  · exact Or.inl (h1.trans h2)
  · exact Or.inl (h2 ▸ h1)
  · exact Or.inl (h1 ▸ h2)
  · exact Or.inr ⟨h1.trans h2, h1b.trans h2b⟩⟩

/-- Model of `combined_similarities.argsort()`: the positions of the score
array sorted by ascending score.  For arrays of fewer than 17 elements
this stable order is exactly what numpy computes (insertion sort); for
longer arrays numpy's default quicksort is documented unstable, its tie
order is unspecified, and the stable order here is an arbitrary concrete
choice of the model — no theorem below asserts anything about the order
of ties beyond 16 elements, only permutation and length facts, which hold
for every numpy sort kind. -/
def argsort (s : List ℚ) : List ℕ :=
  (List.range s.length).insertionSort (argRel s)

/-- Python slice `l[-k:]`, as used on line 111.  For `k = 0` the slice
`l[-0:]` is `l[0:]`, the whole list; otherwise it keeps the last
`min k (length l)` elements. -/
def tailSlice (k : ℕ) (l : List ℕ) : List ℕ :=
  if k = 0 then l else l.drop (l.length - k)

/-- Embedding of line 111: `argsort()[-top_n:][::-1]`. -/
def topIndices (sims : List ℚ) (top_n : ℕ) : List ℕ :=
  (tailSlice top_n (argsort sims)).reverse

/-- Embedding of line 112: `df.iloc[top_indices]`, the catalog rows at the
selected positions in selection order. -/
def selected_rows (s : SearchState) (sims : List ℚ) (top_n : ℕ) : List Row :=
  (topIndices sims top_n).filterMap (fun i => s.rows.get? i)

/-- Embedding of the price conjunct of the filter mask, line 122:
`(discounted_price.fillna(max_price + 1) <= max_price) | discounted_price.isna()`. -/
def price_filter (max_price : ℚ) (row : Row) : Bool :=
  decide (fillna row.discounted_price (max_price + 1) ≤ max_price) || row.discounted_price.isNone

/-- Embedding of the discount conjunct of the filter mask, line 123:
`(discount_percentage.fillna(-1) >= min_discount) | discount_percentage.isna()`. -/
def discount_filter (min_discount : ℚ) (row : Row) : Bool :=
  decide (fillna (calculate_discount_percentage row) (-1) ≥ min_discount) ||
    (calculate_discount_percentage row).isNone

/-- Embedding of the rating conjunct of the filter mask, line 124:
`(product_rating.fillna(-1) >= min_rating) | product_rating.isna()`. -/
def rating_filter (min_rating : ℚ) (row : Row) : Bool :=
  decide (fillna row.product_rating (-1) ≥ min_rating) || row.product_rating.isNone

/-- Embedding of the boolean filter mask of lines 121-125, evaluated on
one row: each numeric filter passes when the `fillna` sentinel comparison
holds or the value is NaN (`isna`). -/
def passesFilters (max_price min_discount min_rating : ℚ) (row : Row) : Bool :=
  price_filter max_price row && discount_filter min_discount row && rating_filter min_rating row

/-- Embedding of the output loop of lines 127-141: for each surviving row
take the parsed image list (a failed parse was recovered as the empty
list), drop the row when that list is empty, and otherwise emit the
summary record built from the first URL. -/
def shapeProducts : List Row → List ProductSummary
  | [] => []
  | row :: rest =>
    match row.image.getD [] with
    | [] => shapeProducts rest
    | url :: _ =>
      { image := url
        name := row.product_name
        price := row.discounted_price
        url := row.product_url } :: shapeProducts rest

/-- Embedding of `get_relevant_products` (lines 92-141): blank queries
short-circuit to the empty list; otherwise vectorize (propagating a
shape-mismatch failure as `none`), score, select the top indices, filter,
and shape the output. -/
def get_relevant_products (s : SearchState) (query : String)
    (max_price min_discount min_rating : ℚ) (top_n : ℕ) : Option (List ProductSummary) :=
  if isBlank query then some []
  else
    match get_weighted_tfidf_vector s query with
    | none => none
    | some query_vector =>
      let sims := combined_similarities s query_vector
      let results := selected_rows s sims top_n
      let filtered_results := results.filter (passesFilters max_price min_discount min_rating)
      some (shapeProducts filtered_results)

/-- Modelled from the words of the spec (section 4.4 with section 4.3),
for comparison with the code: the query is kept as five separate per-field
vectors, each scaled once by its field weight at vectorization time, and
the combined score of row `r` is the direct, unweighted sum of the five
per-field cosine similarities. -/
def spec_combined_score (s : SearchState) (query : String) (r : ℕ) : ℚ :=
  let q := normalize_text_simple (some query)
  cosSim (smulVec weights_name (s.tfidf_name.transform q)) (s.tfidf_name.matrix.getD r []) +
  cosSim (smulVec weights_category (s.tfidf_category.transform q)) (s.tfidf_category.matrix.getD r []) +
  cosSim (smulVec weights_brand (s.tfidf_brand.transform q)) (s.tfidf_brand.matrix.getD r []) +
  cosSim (smulVec weights_description (s.tfidf_description.transform q)) (s.tfidf_description.matrix.getD r []) +
  cosSim (smulVec weights_specifications (s.tfidf_specifications.transform q)) (s.tfidf_specifications.matrix.getD r [])

/-- A concrete catalog row with every field present. -/
def rowA : Row :=
  { product_name := "red shoes", retail_price := some 100, discounted_price := some 80,
    product_rating := some (9/2), image := some ["imgA", "imgA2"], product_url := "urlA" }

/-- A second concrete catalog row, identical to `rowA` for scoring. -/
def rowB : Row :=
  { product_name := "red shoes", retail_price := some 100, discounted_price := some 80,
    product_rating := some (9/2), image := some ["imgB"], product_url := "urlB" }

/-- A concrete catalog row whose numeric fields are all missing. -/
def rowE : Row :=
  { product_name := "n", retail_price := none, discounted_price := none,
    product_rating := none, image := some ["u"], product_url := "u2" }

/-- A concrete catalog row with `retail_price = 0`, so its discount
percentage is not computable. -/
def rowC : Row :=
  { product_name := "c", retail_price := some 0, discounted_price := some 10,
    product_rating := none, image := some ["imgC"], product_url := "urlC" }

/-- A concrete catalog row whose image-URL-list field failed to parse
(the `eval` call raised, recovered as the empty list). -/
def rowM : Row :=
  { product_name := "m", retail_price := some 50, discounted_price := some 40,
    product_rating := some 4, image := none, product_url := "urlM" }

/-- A concrete one-dimensional vector space whose query transform is the
constant vector `[20]` (so each field-weighted copy is an integer vector)
and whose document-term matrix has the given rows. -/
def twentySpace (m : List (List ℚ)) : FieldSpace :=
  { dim := 1, transform := fun _ => [20], matrix := m,
    transform_dim := fun _ => rfl }

/-- A concrete one-dimensional vector space whose query transform is the
zero vector, as a fitted vectorizer produces on a query that normalizes to
the empty string. -/
def zeroSpace (m : List (List ℚ)) : FieldSpace :=
  { dim := 1, transform := fun _ => [0], matrix := m,
    transform_dim := fun _ => rfl }

/-- A concrete two-dimensional vector space with zero query transform. -/
def twoSpace (m : List (List ℚ)) : FieldSpace :=
  { dim := 2, transform := fun _ => [0, 0], matrix := m,
    transform_dim := fun _ => rfl }

/-- Concrete search state with two catalog rows that receive identical
combined similarity scores for every query. -/
def stTie : SearchState :=
  { rows := [rowA, rowB],
    tfidf_name := twentySpace [[1], [1]],
    tfidf_category := twentySpace [[1], [1]],
    tfidf_brand := twentySpace [[1], [1]],
    tfidf_description := twentySpace [[1], [1]],
    tfidf_specifications := twentySpace [[1], [1]],
    name_rows := rfl, category_rows := rfl, brand_rows := rfl,
    description_rows := rfl, specifications_rows := rfl }

/-- Concrete search state with one catalog row and a query transform that
sends every query to the zero vector in each field. -/
def stZero : SearchState :=
  { rows := [rowE],
    tfidf_name := zeroSpace [[1]],
    tfidf_category := zeroSpace [[1]],
    tfidf_brand := zeroSpace [[1]],
    tfidf_description := zeroSpace [[1]],
    tfidf_specifications := zeroSpace [[1]],
    name_rows := rfl, category_rows := rfl, brand_rows := rfl,
    description_rows := rfl, specifications_rows := rfl }

/-- Concrete search state whose category vocabulary has a different size
from the other four vocabularies. -/
def stMis : SearchState :=
  { rows := [rowE],
    tfidf_name := zeroSpace [[1]],
    tfidf_category := twoSpace [[1, 0]],
    tfidf_brand := zeroSpace [[1]],
    tfidf_description := zeroSpace [[1]],
    tfidf_specifications := zeroSpace [[1]],
    name_rows := rfl, category_rows := rfl, brand_rows := rfl,
    description_rows := rfl, specifications_rows := rfl }

/-- The rational square root is exact on squares of naturals. -/
theorem ratSqrt_natCast_mul_self (n : ℕ) : ratSqrt ((n : ℚ) * (n : ℚ)) = n := by
  unfold ratSqrt
  rw [show ((n : ℚ) * (n : ℚ)) = ((n * n : ℕ) : ℚ) by push_cast; ring]
  rw [Rat.num_natCast, Rat.den_natCast, Int.toNat_natCast, Nat.sqrt_eq, Nat.sqrt_one]
  simp

/-- Lowering an ASCII character is idempotent. -/
theorem char_toLower_idem (c : Char) : c.toLower.toLower = c.toLower := by
  by_cases h : 65 ≤ c.toNat ∧ c.toNat ≤ 90
  · obtain ⟨h1, h2⟩ := h
    rw [← Char.ofNat_toNat c]
    generalize c.toNat = n at h1 h2
    interval_cases n <;> decide
  · have hfix : c.toLower = c := by
      unfold Char.toLower
      rw [if_neg h]
    rw [hfix, hfix]

/-- The result of lowering a character is never an upper-case letter. -/
theorem char_isUpper_toLower (c : Char) : c.toLower.isUpper = false := by
  by_cases h : 65 ≤ c.toNat ∧ c.toNat ≤ 90
  · obtain ⟨h1, h2⟩ := h
    rw [← Char.ofNat_toNat c]
    generalize c.toNat = n at h1 h2
    interval_cases n <;> decide
  · have hfix : c.toLower = c := by
      unfold Char.toLower
      rw [if_neg h]
    rw [hfix]
    have : ¬ c.isUpper = true := by
      intro hu
      apply h
      simpa [Char.isUpper, UInt32.le_def, BitVec.le_def, UInt32.toNat, Char.toNat] using hu
    simpa using this

/-- C7: the text normalizer maps missing input to the empty string,
otherwise lowercases and keeps only word characters and whitespace; it is
idempotent, and every character of its output is a word character or
whitespace and is not upper case. -/
theorem c7_normalizer :
    normalize_text_simple none = "" ∧
    (∀ t : String,
      normalize_text_simple (some (normalize_text_simple (some t))) =
        normalize_text_simple (some t)) ∧
    (∀ t : String, ∀ c ∈ (normalize_text_simple (some t)).data,
      (c.isAlphanum = true ∨ c = '_' ∨ c.isWhitespace = true) ∧ c.isUpper = false) := by
  refine ⟨rfl, ?_, ?_⟩
  · intro t
    show (((((t.data.map Char.toLower).filter keepChar).asString).data.map Char.toLower).filter keepChar).asString = _
    have hdata : (((t.data.map Char.toLower).filter keepChar).asString).data =
        (t.data.map Char.toLower).filter keepChar := rfl
    rw [hdata]
    have hmap : ((t.data.map Char.toLower).filter keepChar).map Char.toLower =
        (t.data.map Char.toLower).filter keepChar := by
      rw [show ((t.data.map Char.toLower).filter keepChar).map Char.toLower =
          ((t.data.map Char.toLower).filter keepChar).map id from
        List.map_congr_left ?_]
      · exact List.map_id _
      · intro c hc
        have hc2 := (List.mem_filter.mp hc).1
        obtain ⟨a, _, rfl⟩ := List.mem_map.mp hc2
        exact char_toLower_idem a
    rw [hmap]
    have hfil : ((t.data.map Char.toLower).filter keepChar).filter keepChar =
        (t.data.map Char.toLower).filter keepChar := by
      apply List.filter_eq_self.mpr
      intro c hc
      exact (List.mem_filter.mp hc).2
    rw [hfil]
    rfl
  · intro t c hc
    have hc2 : c ∈ (t.data.map Char.toLower).filter keepChar := hc
    have hkeep := (List.mem_filter.mp hc2).2
    have hmem := (List.mem_filter.mp hc2).1
    obtain ⟨a, _, rfl⟩ := List.mem_map.mp hmem
    constructor
    · have : (a.toLower.isAlphanum || a.toLower == '_' || a.toLower.isWhitespace) = true := hkeep
      rcases Bool.or_eq_true_iff.mp this with h | h
      · rcases Bool.or_eq_true_iff.mp h with h2 | h2
        · exact Or.inl h2
        · exact Or.inr (Or.inl (by simpa using h2))
      · exact Or.inr (Or.inr h)
    · exact char_isUpper_toLower a

/-- C7 witness: a concrete character of the normalized form of a concrete
string, with the membership hypothesis discharged by computation. -/
theorem c7_normalizer_witness :
    ('a' ∈ (normalize_text_simple (some "Ab c!")).data) ∧
    (('a'.isAlphanum = true ∨ 'a' = '_' ∨ 'a'.isWhitespace = true) ∧ 'a'.isUpper = false) :=
  ⟨by decide, c7_normalizer.2.2 "Ab c!" 'a' (by decide)⟩

/-- C8: the discount percentage is `100 * (1 - discounted_price /
retail_price)` (propagating a missing `discounted_price`) when
`retail_price > 0`, and is absent when `retail_price` is missing or not
positive. -/
theorem c8_discount_percentage (row : Row) :
    (∀ r : ℚ, row.retail_price = some r → 0 < r →
      calculate_discount_percentage row = row.discounted_price.map (fun d => 100 * (1 - d / r))) ∧
    ((row.retail_price = none ∨ ∀ r : ℚ, row.retail_price = some r → r ≤ 0) →
      calculate_discount_percentage row = none) := by
  constructor
  · intro r hr hpos
    simp [calculate_discount_percentage, hr, hpos]
  · intro h
    rcases hrp : row.retail_price with _ | r
    · simp [calculate_discount_percentage, hrp]
    · rcases h with h | h
      · rw [hrp] at h
        exact absurd h (by simp)
      · have hle := h r hrp
        simp [calculate_discount_percentage, hrp, not_lt.mpr hle]

/-- C8 witness: concrete rows, one with a positive retail price and one
with retail price zero. -/
theorem c8_discount_percentage_witness :
    calculate_discount_percentage rowA = some 20 ∧
    calculate_discount_percentage rowC = none := by
  constructor
  · have h := (c8_discount_percentage rowA).1 100 rfl (by norm_num)
    rw [h]
    show Option.map _ (some 80) = some 20
    norm_num
  · exact (c8_discount_percentage rowC).2
      (Or.inr (fun r hr => by
        have : (some 0 : Option ℚ) = some r := hr
        cases this
        exact le_refl 0))

/-- C9: the pipeline is deterministic: two invocations with equal query
strings and equal thresholds on the same state return the same value. -/
theorem c9_determinism (s : SearchState) (q1 q2 : String)
    (mp1 mp2 md1 md2 mr1 mr2 : ℚ) (n1 n2 : ℕ)
    (hq : q1 = q2) (hmp : mp1 = mp2) (hmd : md1 = md2) (hmr : mr1 = mr2) (hn : n1 = n2) :
    get_relevant_products s q1 mp1 md1 mr1 n1 = get_relevant_products s q2 mp2 md2 mr2 n2 := by
  rw [hq, hmp, hmd, hmr, hn]

/-- C9 witness: two textually identical invocations on a concrete state. -/
theorem c9_determinism_witness :
    get_relevant_products stTie "red shoes" 99999 0 0 12 =
      get_relevant_products stTie "red shoes" 99999 0 0 12 :=
  c9_determinism stTie "red shoes" "red shoes" 99999 99999 0 0 0 0 12 12 rfl rfl rfl rfl rfl

/-- C2: a selected row passes the filter mask exactly when each of the
three numeric filters passes, where each filter passes when the value
satisfies its threshold or the value is absent; and a row with
`retail_price = 0` has an absent discount percentage, so the discount
filter passes for every `min_discount` value. -/
theorem c2_filter_permissive (max_price min_discount min_rating : ℚ) (row : Row) :
    (passesFilters max_price min_discount min_rating row = true ↔
      ((row.discounted_price = none ∨ ∃ d, row.discounted_price = some d ∧ d ≤ max_price) ∧
       (calculate_discount_percentage row = none ∨
         ∃ p, calculate_discount_percentage row = some p ∧ min_discount ≤ p) ∧
       (row.product_rating = none ∨ ∃ g, row.product_rating = some g ∧ min_rating ≤ g))) ∧
    (row.retail_price = some 0 → ∀ md : ℚ, discount_filter md row = true) := by
  constructor
  · unfold passesFilters price_filter discount_filter rating_filter fillna
    rcases hd : row.discounted_price with _ | d <;>
      rcases hp : calculate_discount_percentage row with _ | p <;>
        rcases hg : row.product_rating with _ | g <;>
          simp [ge_iff_le, and_assoc]
  · intro h0 md
    have habs : calculate_discount_percentage row = none := by
      simp [calculate_discount_percentage, h0]
    unfold discount_filter
    simp [habs]

/-- C2 witness: the row with retail price zero passes the discount filter
at a concrete strict threshold, and the full mask at concrete thresholds. -/
theorem c2_filter_permissive_witness :
    calculate_discount_percentage rowC = none ∧
    discount_filter 99 rowC = true ∧
    passesFilters 100 99 0 rowC = true := by
  refine ⟨by simp [calculate_discount_percentage, rowC], ?_, ?_⟩
  · exact (c2_filter_permissive 100 99 0 rowC).2 rfl 99
  · apply (c2_filter_permissive 100 99 0 rowC).1.mpr
    refine ⟨Or.inr ⟨10, rfl, by norm_num⟩, Or.inl ?_, Or.inl rfl⟩
    simp [calculate_discount_percentage, rowC]

/-- C6: the output loop equals a `filterMap` that drops rows whose
recovered image list is empty and emits the first URL with the name,
discounted price and product URL of the row; and the pipeline fails
(raises) only from the query-vectorization step, never from image
parsing. -/
theorem c6_image_recovery :
    (∀ rows : List Row, shapeProducts rows = rows.filterMap (fun row =>
      match row.image.getD [] with
      | [] => none
      | url :: _ => some { image := url, name := row.product_name,
                           price := row.discounted_price, url := row.product_url })) ∧
    (∀ (s : SearchState) (q : String) (mp md mr : ℚ) (tn : ℕ),
      get_relevant_products s q mp md mr tn = none ↔
        (isBlank q = false ∧ get_weighted_tfidf_vector s q = none)) := by
  constructor
  · intro rows
    induction rows with
    | nil => rfl
    | cons row rest ih =>
      cases himg : row.image.getD [] with
      | nil =>
        simp only [shapeProducts, List.filterMap_cons, himg]
        exact ih
      | cons u us =>
        simp only [shapeProducts, List.filterMap_cons, himg]
        rw [ih]
  · intro s q mp md mr tn
    unfold get_relevant_products
    rcases hq : isBlank q with _ | _
    · cases hv : get_weighted_tfidf_vector s q with
      | none => simp [hq, hv]
      | some v => simp [hq, hv]
    · simp [hq]

/-- C6 witness: a concrete list containing a malformed-image row. -/
theorem c6_image_recovery_witness :
    shapeProducts [rowM, rowA] =
      [{ image := "imgA", name := "red shoes", price := some 80, url := "urlA" }] := by
  rw [c6_image_recovery.1 [rowM, rowA]]
  rfl

/-- The argsort output is a permutation of the positions of the array. -/
theorem argsort_perm (s : List ℚ) : List.Perm (argsort s) (List.range s.length) :=
  List.perm_insertionSort _ _

/-- The argsort output has one entry per score. -/
theorem argsort_length (s : List ℚ) : (argsort s).length = s.length := by
  rw [(argsort_perm s).length_eq, List.length_range]

/-- The argsort output has no duplicate positions. -/
theorem argsort_nodup (s : List ℚ) : (argsort s).Nodup :=
  (argsort_perm s).symm.nodup (List.nodup_range _)

/-- Membership in the argsort output is being a position of the array. -/
theorem mem_argsort {s : List ℚ} {i : ℕ} : i ∈ argsort s ↔ i < s.length := by
  rw [(argsort_perm s).mem_iff, List.mem_range]

/-- The argsort output is sorted for the tie-broken comparison. -/
theorem argsort_sorted (s : List ℚ) : (argsort s).Pairwise (argRel s) :=
  List.sorted_insertionSort (argRel s) _

/-- A tail slice is a sublist. -/
theorem tailSlice_sublist (k : ℕ) (l : List ℕ) : List.Sublist (tailSlice k l) l := by
  unfold tailSlice
  split
  · exact List.Sublist.refl l
  · exact List.drop_sublist _ _

/-- For a positive count the tail slice keeps `min k (length l)` items. -/
theorem tailSlice_length_of_pos (k : ℕ) (l : List ℕ) (hk : 1 ≤ k) :
    (tailSlice k l).length = min k l.length := by
  unfold tailSlice
  rw [if_neg (by omega), List.length_drop]
  omega

/-- Every selected index is a valid position of the score array. -/
theorem topIndices_lt (sims : List ℚ) (k : ℕ) :
    ∀ i ∈ topIndices sims k, i < sims.length := by
  intro i hi
  unfold topIndices at hi
  rw [List.mem_reverse] at hi
  exact mem_argsort.mp ((tailSlice_sublist _ _).subset hi)

/-- For a positive `top_n` the selection has `min top_n (length sims)`
entries. -/
theorem topIndices_length_of_pos (sims : List ℚ) (k : ℕ) (hk : 1 ≤ k) :
    (topIndices sims k).length = min k sims.length := by
  unfold topIndices
  rw [List.length_reverse, tailSlice_length_of_pos _ _ hk, argsort_length]

/-- A filterMap whose function is everywhere defined preserves length. -/
theorem filterMap_length_of_isSome {α β : Type} (l : List α) (f : α → Option β)
    (h : ∀ a ∈ l, (f a).isSome) : (l.filterMap f).length = l.length := by
  induction l with
  | nil => rfl
  | cons a t ih =>
    rw [List.filterMap_cons]
    rcases hfa : f a with _ | b
    · have := h a (List.mem_cons_self a t)
      rw [hfa] at this
      simp at this
    · simp only [List.length_cons]
      rw [ih (fun x hx => h x (List.mem_cons_of_mem a hx))]

/-- The combined similarity array has one score per catalog row. -/
theorem combined_similarities_length (s : SearchState) (qv : List ℚ) :
    (combined_similarities s qv).length = s.rows.length := by
  unfold combined_similarities sim_array
  simp only [List.length_zipWith, List.length_map, s.name_rows, s.category_rows,
    s.brand_rows, s.description_rows, s.specifications_rows]
  omega

/-- For a positive `top_n`, the row selection of line 112 picks exactly
`min top_n catalog_size` rows. -/
theorem selected_rows_length (s : SearchState) (sims : List ℚ) (k : ℕ)
    (hs : sims.length = s.rows.length) (hk : 1 ≤ k) :
    (selected_rows s sims k).length = min k s.rows.length := by
  unfold selected_rows
  rw [filterMap_length_of_isSome, topIndices_length_of_pos _ _ hk, hs]
  intro i hi
  have hlt := topIndices_lt sims k i hi
  rw [hs] at hlt
  rw [List.get?_eq_getElem?, List.getElem?_eq_getElem hlt]
  rfl

/-- The output loop emits at most one record per row. -/
theorem shapeProducts_length_le (rows : List Row) :
    (shapeProducts rows).length ≤ rows.length := by
  induction rows with
  | nil => exact Nat.le_refl 0
  | cons row rest ih =>
    cases himg : row.image.getD [] with
    | nil =>
      simp only [shapeProducts, himg]
      exact Nat.le_succ_of_le ih
    | cons u us =>
      simp only [shapeProducts, himg, List.length_cons]
      exact Nat.succ_le_succ ih

/-- A successful sparse addition forces equal operand dimensions and
keeps the dimension. -/
theorem addVec_eq_some {x y z : List ℚ} (h : addVec x y = some z) :
    x.length = y.length ∧ z.length = x.length := by
  unfold addVec at h
  split at h
  · rename_i hc
    injection h with h2
    subst h2
    refine ⟨hc, ?_⟩
    rw [List.length_zipWith]
    omega
  · cases h

/-- Sparse addition of vectors with different dimensions fails. -/
theorem addVec_eq_none {x y : List ℚ} (h : ¬ x.length = y.length) : addVec x y = none := by
  unfold addVec
  rw [if_neg h]

/-- Sparse addition of vectors with equal dimensions succeeds. -/
theorem addVec_eq_some_of_eq {x y : List ℚ} (h : x.length = y.length) :
    addVec x y = some (List.zipWith (· + ·) x y) := by
  unfold addVec
  rw [if_pos h]

/-- C10: the merged weighted query vector exists exactly when the five
learned vocabularies have the same size; when any two differ, every
non-blank query makes the whole pipeline fail (the scipy shape-mismatch
error propagates to the caller). -/
theorem c10_shape_mismatch (s : SearchState) (q : String) :
    ((get_weighted_tfidf_vector s q).isSome ↔
      (s.tfidf_name.dim = s.tfidf_category.dim ∧ s.tfidf_name.dim = s.tfidf_brand.dim ∧
       s.tfidf_name.dim = s.tfidf_description.dim ∧
       s.tfidf_name.dim = s.tfidf_specifications.dim)) ∧
    (∀ (mp md mr : ℚ) (tn : ℕ),
      ¬ (s.tfidf_name.dim = s.tfidf_category.dim ∧ s.tfidf_name.dim = s.tfidf_brand.dim ∧
         s.tfidf_name.dim = s.tfidf_description.dim ∧
         s.tfidf_name.dim = s.tfidf_specifications.dim) →
      isBlank q = false →
      get_relevant_products s q mp md mr tn = none) := by
  have l1 : (smulVec weights_name (s.tfidf_name.transform (normalize_text_simple (some q)))).length
      = s.tfidf_name.dim := by simp [smulVec, s.tfidf_name.transform_dim]
  have l2 : (smulVec weights_category
          (s.tfidf_category.transform (normalize_text_simple (some q)))).length
      = s.tfidf_category.dim := by simp [smulVec, s.tfidf_category.transform_dim]
  have l3 : (smulVec weights_brand (s.tfidf_brand.transform (normalize_text_simple (some q)))).length
      = s.tfidf_brand.dim := by simp [smulVec, s.tfidf_brand.transform_dim]
  have l4 : (smulVec weights_description
          (s.tfidf_description.transform (normalize_text_simple (some q)))).length
      = s.tfidf_description.dim := by simp [smulVec, s.tfidf_description.transform_dim]
  have l5 : (smulVec weights_specifications
          (s.tfidf_specifications.transform (normalize_text_simple (some q)))).length
      = s.tfidf_specifications.dim := by simp [smulVec, s.tfidf_specifications.transform_dim]
  have hmain : (get_weighted_tfidf_vector s q).isSome ↔
      (s.tfidf_name.dim = s.tfidf_category.dim ∧ s.tfidf_name.dim = s.tfidf_brand.dim ∧
       s.tfidf_name.dim = s.tfidf_description.dim ∧
       s.tfidf_name.dim = s.tfidf_specifications.dim) := by
    simp only [get_weighted_tfidf_vector]
    set a := smulVec weights_name (s.tfidf_name.transform (normalize_text_simple (some q))) with haa
    set b := smulVec weights_category
      (s.tfidf_category.transform (normalize_text_simple (some q))) with hbb
    set c := smulVec weights_brand
      (s.tfidf_brand.transform (normalize_text_simple (some q))) with hcc
    set d := smulVec weights_description
      (s.tfidf_description.transform (normalize_text_simple (some q))) with hdd
    set e := smulVec weights_specifications
      (s.tfidf_specifications.transform (normalize_text_simple (some q))) with hee
    by_cases h1 : s.tfidf_name.dim = s.tfidf_category.dim
    · rw [addVec_eq_some_of_eq (by rw [l1, l2, h1])]
      have lv1 : (List.zipWith (· + ·) a b).length = s.tfidf_name.dim := by
        rw [List.length_zipWith, l1, l2, h1]
        omega
      by_cases h2 : s.tfidf_name.dim = s.tfidf_brand.dim
      · rw [Option.some_bind, addVec_eq_some_of_eq (by rw [lv1, l3, h2])]
        have lv2 : (List.zipWith (· + ·) (List.zipWith (· + ·) a b) c).length
            = s.tfidf_name.dim := by
          rw [List.length_zipWith, lv1, l3, h2]
          omega
        by_cases h3 : s.tfidf_name.dim = s.tfidf_description.dim
        · rw [Option.some_bind, addVec_eq_some_of_eq (by rw [lv2, l4, h3])]
          have lv3 : (List.zipWith (· + ·) (List.zipWith (· + ·) (List.zipWith (· + ·) a b) c)
              d).length = s.tfidf_name.dim := by
            rw [List.length_zipWith, lv2, l4, h3]
            omega
          by_cases h4 : s.tfidf_name.dim = s.tfidf_specifications.dim
          · rw [Option.some_bind, addVec_eq_some_of_eq (by rw [lv3, l5, h4])]
            simp [h1, h2, h3, h4]
            omega
          · rw [Option.some_bind, addVec_eq_none (by rw [lv3, l5]; exact h4)]
            simp [h4]
        · rw [Option.some_bind, addVec_eq_none (by rw [lv2, l4]; exact h3)]
          simp [h3]
      · rw [Option.some_bind, addVec_eq_none (by rw [lv1, l3]; exact h2)]
        simp [h2]
    · rw [addVec_eq_none (by rw [l1, l2]; exact h1)]
      simp [h1]
  refine ⟨hmain, ?_⟩
  intro mp md mr tn hne hq
  have hnone : get_weighted_tfidf_vector s q = none := by
    rcases hv : get_weighted_tfidf_vector s q with _ | v
    · rfl
    · exfalso
      apply hne
      apply hmain.mp
      rw [hv]
      rfl
  unfold get_relevant_products
  rw [hq, hnone]
  rfl

/-- C10 witness: a concrete state whose category vocabulary has size 2
while the other vocabularies have size 1. -/
theorem c10_shape_mismatch_witness :
    get_relevant_products stMis "a" 1 2 3 4 = none :=
  (c10_shape_mismatch stMis "a").2 1 2 3 4
    (by
      intro h
      have := h.1
      simp [stMis, zeroSpace, twoSpace] at this)
    (by decide)

/-- Cosine of the zero query vector with a unit document vector is 0. -/
theorem cosSim_zero_one : cosSim [0] [1] = 0 := by
  have h0 := ratSqrt_natCast_mul_self 0
  have h1 := ratSqrt_natCast_mul_self 1
  norm_num at h0 h1
  norm_num [cosSim, dot, h0, h1]

/-- Cosine of the vector `[20]` with the unit document vector is 1. -/
theorem cosSim_twenty_one : cosSim [20] [1] = 1 := by
  have h20 := ratSqrt_natCast_mul_self 20
  have h1 := ratSqrt_natCast_mul_self 1
  norm_num at h20 h1
  norm_num [cosSim, dot, h20, h1]

/-- On the zero-transform state the merged query vector is the zero
vector, for every query. -/
theorem gwtv_stZero (q : String) : get_weighted_tfidf_vector stZero q = some [0] := by
  simp only [get_weighted_tfidf_vector]
  norm_num [stZero, zeroSpace, addVec, smulVec, weights_name, weights_category,
    weights_brand, weights_description, weights_specifications]

/-- The combined similarity array of the zero query vector on the
zero-transform state. -/
theorem combined_stZero : combined_similarities stZero [0] = [0] := by
  norm_num [combined_similarities, sim_array, stZero, zeroSpace, cosSim_zero_one,
    weights_name, weights_category, weights_brand, weights_description,
    weights_specifications]

/-- Selection on a one-element score array keeps the single row, for the
default cutoff. -/
theorem topIndices_single_twelve : topIndices [(0 : ℚ)] 12 = [0] := by
  norm_num [topIndices, argsort, tailSlice, List.insertionSort, List.orderedInsert,
    List.range, List.range.loop]

/-- Selection on a one-element score array keeps the single row even for
`top_n = 0` (the Python slice `[-0:]` is the whole array). -/
theorem topIndices_single_zero : topIndices [(0 : ℚ)] 0 = [0] := by
  norm_num [topIndices, argsort, tailSlice, List.insertionSort, List.orderedInsert,
    List.range, List.range.loop]

/-- The missing-value row passes every filter triple used below. -/
theorem passes_rowE (mp md mr : ℚ) : passesFilters mp md mr rowE = true := by
  norm_num [passesFilters, price_filter, discount_filter, rating_filter, fillna,
    calculate_discount_percentage, rowE]

/-- Full pipeline evaluation on the zero-transform state: the zero query
vector gives every row the score 0, the single row is selected, passes
the filters, and is emitted. -/
theorem grp_stZero (q : String) (mp md mr : ℚ) (tn : ℕ)
    (hq : isBlank q = false) (htn : topIndices [(0 : ℚ)] tn = [0]) :
    get_relevant_products stZero q mp md mr tn =
      some [{ image := "u", name := "n", price := none, url := "u2" }] := by
  unfold get_relevant_products
  rw [hq]
  simp only [Bool.false_eq_true, if_false, gwtv_stZero]
  show some _ = _
  rw [combined_stZero]
  unfold selected_rows
  rw [htn]
  simp [stZero, passes_rowE]
  simp [shapeProducts, rowE]

/-- C3 counterexample: the query consisting of one exclamation mark
normalizes to the empty string, yet it is not caught by the blank-query
guard (which tests the raw stripped query), and the pipeline returns a
non-empty result computed from all-zero similarities instead of the empty
list. -/
theorem c3_counterexample :
    normalize_text_simple (some "!") = "" ∧
    isBlank "!" = false ∧
    get_relevant_products stZero "!" 0 99 5 12 =
      some [{ image := "u", name := "n", price := none, url := "u2" }] ∧
    ¬ get_relevant_products stZero "!" 0 99 5 12 = some [] := by
  have h := grp_stZero "!" 0 99 5 12 (by decide) topIndices_single_twelve
  refine ⟨by decide, by decide, h, ?_⟩
  rw [h]
  intro hcontra
  injection hcontra with hcontra2
  cases hcontra2

/-- C3 amended: the pipeline short-circuits to the empty list exactly for
queries whose raw text is blank (empty or all whitespace); a query that
normalizes to empty but contains non-whitespace characters instead
proceeds through scoring. -/
theorem c3_amended_blank_query (s : SearchState) (mp md mr : ℚ) (tn : ℕ) (q : String)
    (hq : isBlank q = true) : get_relevant_products s q mp md mr tn = some [] := by
  unfold get_relevant_products
  rw [hq]
  rfl

/-- C3 amended witness: a whitespace query on a concrete state with
arbitrary thresholds. -/
theorem c3_amended_blank_query_witness :
    get_relevant_products stTie " " 1 2 3 4 = some [] :=
  c3_amended_blank_query stTie 1 2 3 4 " " (by decide)

/-- C5 counterexample: with `top_n = 0` the Python slice `[-0:]` selects
the whole catalog, so a non-blank query returns one row even though
`min top_n catalog_size = 0`. -/
theorem c5_counterexample :
    get_relevant_products stZero "a" 99999 0 0 0 =
      some [{ image := "u", name := "n", price := none, url := "u2" }] ∧
    ¬ (1 ≤ min 0 stZero.rows.length) := by
  refine ⟨grp_stZero "a" 99999 0 0 0 (by decide) topIndices_single_zero, ?_⟩
  decide

/-- C5 amended: for every positive `top_n` and non-blank query, the ranker
selects exactly `min top_n catalog_size` rows before filtering, and since
filtering and output shaping only remove rows, any returned result has at
most `min top_n catalog_size` entries. -/
theorem c5_amended_size_bound (s : SearchState) (q : String) (mp md mr : ℚ) (tn : ℕ)
    (htn : 1 ≤ tn) (hq : isBlank q = false) :
    (∀ qv, get_weighted_tfidf_vector s q = some qv →
      (selected_rows s (combined_similarities s qv) tn).length = min tn s.rows.length) ∧
    (∀ res, get_relevant_products s q mp md mr tn = some res →
      res.length ≤ min tn s.rows.length) := by
  have hsel : ∀ qv, (selected_rows s (combined_similarities s qv) tn).length
      = min tn s.rows.length := by
    intro qv
    exact selected_rows_length s _ tn (combined_similarities_length s qv) htn
  refine ⟨fun qv _ => hsel qv, ?_⟩
  intro res hres
  unfold get_relevant_products at hres
  rw [hq] at hres
  simp only [Bool.false_eq_true, if_false] at hres
  rcases hv : get_weighted_tfidf_vector s q with _ | qv
  · rw [hv] at hres
    cases hres
  · rw [hv] at hres
    simp only [Option.some.injEq] at hres
    subst hres
    calc (shapeProducts ((selected_rows s (combined_similarities s qv) tn).filter
            (passesFilters mp md mr))).length
        ≤ ((selected_rows s (combined_similarities s qv) tn).filter
            (passesFilters mp md mr)).length := shapeProducts_length_le _
      _ ≤ (selected_rows s (combined_similarities s qv) tn).length :=
          List.length_filter_le _ _
      _ = min tn s.rows.length := hsel qv

/-- C5 amended witness: the concrete one-row state at the default cutoff
with a non-blank query; the returned result has one entry, within the
bound `min 12 1`. -/
theorem c5_amended_size_bound_witness :
    1 ≤ 12 ∧ isBlank "a" = false ∧
    ([({ image := "u", name := "n", price := none, url := "u2" } : ProductSummary)]).length ≤
      min 12 stZero.rows.length :=
  ⟨by decide, by decide,
    (c5_amended_size_bound stZero "a" 99999 0 0 12 (by decide) (by decide)).2 _
      (grp_stZero "a" 99999 0 0 12 (by decide) topIndices_single_twelve)⟩

/-- Two distinct members of a duplicate-free list occur in one of the two
orders, as a two-element sublist. -/
theorem pair_sublist_of_mem {i j : ℕ} {l : List ℕ} (hne : i ≠ j) (hi : i ∈ l) (hj : j ∈ l)
    (hnd : l.Nodup) : List.Sublist [i, j] l ∨ List.Sublist [j, i] l := by
  induction l with
  | nil => cases hi
  | cons x t ih =>
    rcases List.mem_cons.mp hi with rfl | hit
    · have hjt : j ∈ t := by
        rcases List.mem_cons.mp hj with rfl | h
        · exact absurd rfl hne
        · exact h
      exact Or.inl (List.Sublist.cons₂ _ (List.singleton_sublist.mpr hjt))
    · rcases List.mem_cons.mp hj with rfl | hjt
      · exact Or.inr (List.Sublist.cons₂ _ (List.singleton_sublist.mpr hit))
      · have hndt : t.Nodup := (List.nodup_cons.mp hnd).2
        exact (ih hit hjt hndt).imp (List.Sublist.cons x) (List.Sublist.cons x)

/-- A two-element sublist of a duplicate-free list survives dropping a
prefix when its first element is in the suffix. -/
theorem pair_sublist_drop {i j : ℕ} {l : List ℕ} {m : ℕ} (hnd : l.Nodup)
    (hp : List.Sublist [i, j] l) (hi : i ∈ l.drop m) :
    List.Sublist [i, j] (l.drop m) := by
  have hsplit : l = l.take m ++ l.drop m := (List.take_append_drop m l).symm
  rw [hsplit] at hp hnd
  rcases List.sublist_append_iff.mp hp with ⟨l1, l2, heq, h1, h2⟩
  have hdisj := List.disjoint_of_nodup_append hnd
  cases l1 with
  | nil =>
    rw [List.nil_append] at heq
    subst heq
    exact h2
  | cons a t1 =>
    injection heq with ha htail
    subst ha
    exfalso
    exact hdisj (h1.subset (List.mem_cons_self i t1)) hi

/-- C4 amended: on score arrays of at most 16 entries — the regime in
which numpy argsort provably runs its stable insertion sort, so the model
matches the program — selected rows with equal combined scores are
ordered by descending original catalog index: the stable ascending
argsort puts the lower index first and the `[::-1]` of line 111 reverses
the pair.  For larger catalogs the source's default quicksort leaves the
tie order unspecified, so no order is asserted there. -/
theorem c4_amended_tie_break (sims : List ℚ) (k i j : ℕ)
    (_hlen : sims.length ≤ 16)
    (hij : i < j) (heq : sims.getD i 0 = sims.getD j 0)
    (hi : i ∈ topIndices sims k) (hj : j ∈ topIndices sims k) :
    List.Sublist [j, i] (topIndices sims k) := by
  unfold topIndices at hi hj ⊢
  rw [List.mem_reverse] at hi hj
  have hi2 : i ∈ argsort sims := (tailSlice_sublist _ _).subset hi
  have hj2 : j ∈ argsort sims := (tailSlice_sublist _ _).subset hj
  have hnd := argsort_nodup sims
  have hne : i ≠ j := Nat.ne_of_lt hij
  have hpair : List.Sublist [i, j] (argsort sims) := by
    rcases pair_sublist_of_mem hne hi2 hj2 hnd with h | h
    · exact h
    · exfalso
      have hp := List.Pairwise.sublist h (argsort_sorted sims)
      have hrel : argRel sims j i :=
        (List.pairwise_cons.mp hp).1 i (List.mem_singleton.mpr rfl)
      unfold argRel at hrel
      rcases hrel with h3 | ⟨h3, h4⟩
      · rw [heq] at h3
        exact lt_irrefl _ h3
      · omega
  have hpair2 : List.Sublist [i, j] (tailSlice k (argsort sims)) := by
    by_cases hk : k = 0
    · simpa only [tailSlice, if_pos hk] using hpair
    · simp only [tailSlice, if_neg hk] at hi ⊢
      exact pair_sublist_drop hnd hpair hi
  have hrev := hpair2.reverse
  simpa using hrev

/-- On the tie state the merged query vector is `[20]`, for every query. -/
theorem gwtv_stTie (q : String) : get_weighted_tfidf_vector stTie q = some [20] := by
  simp only [get_weighted_tfidf_vector]
  norm_num [stTie, twentySpace, addVec, smulVec, weights_name, weights_category,
    weights_brand, weights_description, weights_specifications]

/-- Both rows of the tie state receive the combined score 1. -/
theorem combined_stTie : combined_similarities stTie [20] = [1, 1] := by
  norm_num [combined_similarities, sim_array, stTie, twentySpace, cosSim_twenty_one,
    weights_name, weights_category, weights_brand, weights_description,
    weights_specifications]

/-- Selection on the tied two-element score array, at the default cutoff:
the stable ascending argsort `[0, 1]` is reversed into `[1, 0]`. -/
theorem topIndices_pair : topIndices [(1 : ℚ), 1] 12 = [1, 0] := by
  norm_num [topIndices, argsort, tailSlice, List.insertionSort, List.orderedInsert,
    argRel, List.range, List.range.loop]

/-- C4 counterexample: a query and two catalog rows with identical
combined scores whose selected order is `[1, 0]` — descending catalog
index — so the ascending tie-break claim fails. -/
theorem c4_counterexample :
    get_weighted_tfidf_vector stTie "red shoes" = some [20] ∧
    (combined_similarities stTie [20]).getD 0 0 = (combined_similarities stTie [20]).getD 1 0 ∧
    topIndices (combined_similarities stTie [20]) 12 = [1, 0] ∧
    ¬ List.Sublist [0, 1] (topIndices (combined_similarities stTie [20]) 12) := by
  refine ⟨gwtv_stTie "red shoes", ?_, ?_, ?_⟩
  · rw [combined_stTie]
    rfl
  · rw [combined_stTie]
    exact topIndices_pair
  · rw [combined_stTie, topIndices_pair]
    decide

/-- C4 amended witness: the concrete tied score array, where the pair
`[1, 0]` (higher index first) is the selected order. -/
theorem c4_amended_tie_break_witness :
    [(1 : ℚ), 1].length ≤ 16 ∧ 0 < 1 ∧
    ([(1 : ℚ), 1].getD 0 0 = [(1 : ℚ), 1].getD 1 0) ∧
    List.Sublist [1, 0] (topIndices [(1 : ℚ), 1] 12) :=
  ⟨by decide, Nat.zero_lt_one, rfl,
    c4_amended_tie_break [1, 1] 12 0 1 (by decide) Nat.zero_lt_one rfl
      (by rw [topIndices_pair]; decide)
      (by rw [topIndices_pair]; decide)⟩

/-- Pointwise value of an elementwise sum, inside the common length. -/
theorem getD_zipWith_add (a b : List ℚ) (r : ℕ) (ha : r < a.length) (hb : r < b.length) :
    (List.zipWith (· + ·) a b).getD r 0 = a.getD r 0 + b.getD r 0 := by
  induction a generalizing b r with
  | nil => cases ha
  | cons x t ih =>
    cases b with
    | nil => cases hb
    | cons y u =>
      cases r with
      | zero => simp
      | succ n =>
        simp only [List.zipWith_cons_cons, List.getD_cons_succ]
        exact ih u n (by simpa using ha) (by simpa using hb)

/-- Pointwise value of a scalar-scaled array, inside its length. -/
theorem getD_map_mul (w : ℚ) (l : List ℚ) (r : ℕ) (h : r < l.length) :
    (l.map (fun x => w * x)).getD r 0 = w * l.getD r 0 := by
  induction l generalizing r with
  | nil => cases h
  | cons x t ih =>
    cases r with
    | zero => simp
    | succ n =>
      simp only [List.map_cons, List.getD_cons_succ]
      exact ih n (by simpa using h)

/-- Pointwise value of a similarity array, inside the matrix row count. -/
theorem getD_sim_array (qv : List ℚ) (m : List (List ℚ)) (r : ℕ) (h : r < m.length) :
    (sim_array qv m).getD r 0 = cosSim qv (m.getD r []) := by
  induction m generalizing r with
  | nil => cases h
  | cons x t ih =>
    cases r with
    | zero => simp [sim_array]
    | succ n =>
      simp only [sim_array, List.map_cons, List.getD_cons_succ]
      exact ih n (by simpa using h)

/-- Pointwise value of one weighted similarity array. -/
theorem getD_weighted_sim (w : ℚ) (qv : List ℚ) (m : List (List ℚ)) (r : ℕ)
    (h : r < m.length) :
    ((sim_array qv m).map (fun x => w * x)).getD r 0 = w * cosSim qv (m.getD r []) := by
  rw [getD_map_mul _ _ _ (by simpa [sim_array] using h), getD_sim_array _ _ _ h]

/-- C1 amended: for every state, merged query vector and catalog row, the
combined relevance score of the row is the field-weighted sum of the five
cosine similarities of the single merged (already weighted) query vector
against the per-field document rows — the weights are applied a second
time at combination, and the query is not kept as five per-field
vectors. -/
theorem c1_amended_combined_score (s : SearchState) (qv : List ℚ) (r : ℕ)
    (hr : r < s.rows.length) :
    (combined_similarities s qv).getD r 0 =
      weights_name * cosSim qv (s.tfidf_name.matrix.getD r []) +
      weights_category * cosSim qv (s.tfidf_category.matrix.getD r []) +
      weights_brand * cosSim qv (s.tfidf_brand.matrix.getD r []) +
      weights_description * cosSim qv (s.tfidf_description.matrix.getD r []) +
      weights_specifications * cosSim qv (s.tfidf_specifications.matrix.getD r []) := by
  have hn : r < s.tfidf_name.matrix.length := by rw [s.name_rows]; exact hr
  have hc : r < s.tfidf_category.matrix.length := by rw [s.category_rows]; exact hr
  have hb : r < s.tfidf_brand.matrix.length := by rw [s.brand_rows]; exact hr
  have hd : r < s.tfidf_description.matrix.length := by rw [s.description_rows]; exact hr
  have hs : r < s.tfidf_specifications.matrix.length := by rw [s.specifications_rows]; exact hr
  have la1 : r < ((sim_array qv s.tfidf_name.matrix).map (fun x => weights_name * x)).length := by
    simpa [sim_array] using hn
  have la2 : r < ((sim_array qv s.tfidf_category.matrix).map
      (fun x => weights_category * x)).length := by
    simpa [sim_array] using hc
  have la3 : r < ((sim_array qv s.tfidf_brand.matrix).map (fun x => weights_brand * x)).length := by
    simpa [sim_array] using hb
  have la4 : r < ((sim_array qv s.tfidf_description.matrix).map
      (fun x => weights_description * x)).length := by
    simpa [sim_array] using hd
  have la5 : r < ((sim_array qv s.tfidf_specifications.matrix).map
      (fun x => weights_specifications * x)).length := by
    simpa [sim_array] using hs
  have l12 : r < (List.zipWith (· + ·)
      ((sim_array qv s.tfidf_name.matrix).map (fun x => weights_name * x))
      ((sim_array qv s.tfidf_category.matrix).map (fun x => weights_category * x))).length := by
    rw [List.length_zipWith]
    omega
  have l123 : r < (List.zipWith (· + ·) (List.zipWith (· + ·)
      ((sim_array qv s.tfidf_name.matrix).map (fun x => weights_name * x))
      ((sim_array qv s.tfidf_category.matrix).map (fun x => weights_category * x)))
      ((sim_array qv s.tfidf_brand.matrix).map (fun x => weights_brand * x))).length := by
    rw [List.length_zipWith]
    omega
  have l1234 : r < (List.zipWith (· + ·) (List.zipWith (· + ·) (List.zipWith (· + ·)
      ((sim_array qv s.tfidf_name.matrix).map (fun x => weights_name * x))
      ((sim_array qv s.tfidf_category.matrix).map (fun x => weights_category * x)))
      ((sim_array qv s.tfidf_brand.matrix).map (fun x => weights_brand * x)))
      ((sim_array qv s.tfidf_description.matrix).map
        (fun x => weights_description * x))).length := by
    rw [List.length_zipWith]
    omega
  simp only [combined_similarities]
  rw [getD_zipWith_add _ _ _ l1234 la5, getD_zipWith_add _ _ _ l123 la4,
    getD_zipWith_add _ _ _ l12 la3, getD_zipWith_add _ _ _ la1 la2,
    getD_weighted_sim _ _ _ _ hn, getD_weighted_sim _ _ _ _ hc,
    getD_weighted_sim _ _ _ _ hb, getD_weighted_sim _ _ _ _ hd,
    getD_weighted_sim _ _ _ _ hs]

/-- C1 amended witness: row 0 of the concrete tie state. -/
theorem c1_amended_combined_score_witness :
    0 < stTie.rows.length ∧
    (combined_similarities stTie [20]).getD 0 0 =
      weights_name * cosSim [20] (stTie.tfidf_name.matrix.getD 0 []) +
      weights_category * cosSim [20] (stTie.tfidf_category.matrix.getD 0 []) +
      weights_brand * cosSim [20] (stTie.tfidf_brand.matrix.getD 0 []) +
      weights_description * cosSim [20] (stTie.tfidf_description.matrix.getD 0 []) +
      weights_specifications * cosSim [20] (stTie.tfidf_specifications.matrix.getD 0 []) :=
  ⟨by decide, c1_amended_combined_score stTie [20] 0 (by decide)⟩

/-- Cosine of the vector `[8]` with the unit document vector is 1. -/
theorem cosSim_eight_one : cosSim [8] [1] = 1 := by
  have h8 := ratSqrt_natCast_mul_self 8
  have h1 := ratSqrt_natCast_mul_self 1
  norm_num at h8 h1
  norm_num [cosSim, dot, h8, h1]

/-- Cosine of the vector `[4]` with the unit document vector is 1. -/
theorem cosSim_four_one : cosSim [4] [1] = 1 := by
  have h4 := ratSqrt_natCast_mul_self 4
  have h1 := ratSqrt_natCast_mul_self 1
  norm_num at h4 h1
  norm_num [cosSim, dot, h4, h1]

/-- Cosine of the vector `[3]` with the unit document vector is 1. -/
theorem cosSim_three_one : cosSim [3] [1] = 1 := by
  have h3 := ratSqrt_natCast_mul_self 3
  have h1 := ratSqrt_natCast_mul_self 1
  norm_num at h3 h1
  norm_num [cosSim, dot, h3, h1]

/-- Cosine of the vector `[2]` with the unit document vector is 1. -/
theorem cosSim_two_one : cosSim [2] [1] = 1 := by
  have h2 := ratSqrt_natCast_mul_self 2
  have h1 := ratSqrt_natCast_mul_self 1
  norm_num at h2 h1
  norm_num [cosSim, dot, h2, h1]

/-- The spec-described score of row 0 on the tie state: each of the five
field-weighted query vectors has cosine 1 with the unit document row, so
the direct unweighted sum is 5. -/
theorem spec_stTie : spec_combined_score stTie "red shoes" 0 = 5 := by
  norm_num [spec_combined_score, stTie, twentySpace, smulVec, weights_name,
    weights_category, weights_brand, weights_description, weights_specifications,
    cosSim_eight_one, cosSim_four_one, cosSim_three_one, cosSim_two_one]

/-- C1 counterexample: on the tie state with the non-blank query, the
combined score computed by the code for row 0 is 1, while the direct
unweighted sum of the five per-field similarities of the separately
weighted query vectors is 5; the two quantities differ. -/
theorem c1_counterexample :
    isBlank "red shoes" = false ∧
    get_weighted_tfidf_vector stTie "red shoes" = some [20] ∧
    (combined_similarities stTie [20]).getD 0 0 = 1 ∧
    spec_combined_score stTie "red shoes" 0 = 5 ∧
    ¬ ((combined_similarities stTie [20]).getD 0 0 =
        spec_combined_score stTie "red shoes" 0) := by
  have hcode : (combined_similarities stTie [20]).getD 0 0 = 1 := by
    rw [combined_stTie]
    rfl
  refine ⟨by decide, gwtv_stTie _, hcode, spec_stTie, ?_⟩
  rw [hcode, spec_stTie]
  norm_num
